import Mathlib

/-!
Verification development for the pmxt unified prediction-market exchange layer.

Shallow embedding of the core data model and algorithms:
* order books and the execution-price (VWAP-against-book) computation,
* Baozi pari-mutuel price synthesis (binary and race markets),
* the Borsh fixed-layout account reader,
* the token-bucket Throttler loop,
* the Kalshi cursor-pagination loop and its module-level cache,
* the Polymarket/Baozi realtime reconciliation channels.

Prices and sizes are modelled as rationals, on-chain integer fields as
natural numbers (u64 values) cast into rationals where the source casts
bigints to JS numbers.
-/

namespace Pmxt

-- ===========================================================================
-- Order-book data model (src/core/src/types.ts)
-- ===========================================================================

structure OrderLevel where
  price : ℚ
  size : ℚ
deriving DecidableEq, Repr

structure OrderBook where
  bids : List OrderLevel
  asks : List OrderLevel
  timestamp : ℤ
deriving DecidableEq, Repr

inductive Side
  | buy
  | sell
deriving DecidableEq, Repr

structure ExecutionPriceResult where
  price : ℚ
  filledAmount : ℚ
  fullyFilled : Bool
deriving DecidableEq, Repr

/-- Modelled from the spec: `BaseExchange.getExecutionPriceDetailed` walks the
opposing book side in its sorted order, accumulating size until the target
amount is met or the side is exhausted (the BaseExchange source file is not
among the provided sources; only its documentation, callers and tests are).
This helper returns the accumulated cost (price-weighted size) and the
accumulated filled size. -/
def fillAgainstLevels : List OrderLevel → ℚ → ℚ × ℚ
  | [], _ => (0, 0)
  | l :: rest, remaining =>
    if remaining ≤ 0 then (0, 0)
    else
      let take := min l.size remaining
      let r := fillAgainstLevels rest (remaining - take)
      (r.1 + l.price * take, r.2 + take)

/-- Modelled from the spec: buying consumes asks from lowest price upward,
selling consumes bids from highest price downward; the result is the
size-weighted average price over the amount actually filled, `0` when no
liquidity exists, together with the filled amount and a full-fill flag. -/
def getExecutionPriceDetailed (book : OrderBook) (side : Side) (amount : ℚ) :
    ExecutionPriceResult :=
  let levels := match side with
    | Side.buy => book.asks
    | Side.sell => book.bids
  let cf := fillAgainstLevels levels amount
  { price := if 0 < cf.2 then cf.1 / cf.2 else 0
    filledAmount := cf.2
    fullyFilled := decide (cf.2 = amount) }

/-- Modelled from the spec: the plain variant returns just the size-weighted
average price of the detailed result. -/
def getExecutionPrice (book : OrderBook) (side : Side) (amount : ℚ) : ℚ :=
  (getExecutionPriceDetailed book side amount).price

/-- The concrete book used by the spec's execution-price test vector. -/
def specBook : OrderBook :=
  { bids := [⟨1/2, 100⟩]
    asks := [⟨11/20, 50⟩, ⟨3/5, 200⟩]
    timestamp := 0 }

-- ===========================================================================
-- Baozi pari-mutuel price synthesis
-- (src/core/src/exchanges/baozi/utils.ts, mapBooleanToUnified / mapRaceToUnified)
-- ===========================================================================

structure BaoziOutcome where
  outcomeId : String
  label : String
  price : ℚ
deriving DecidableEq, Repr

/-- Embeds the outcome construction of `mapBooleanToUnified`: implied YES
price is `noPool / totalPool`, NO price is `yesPool / totalPool`, both
defaulting to `0.5` when the total pool is zero.  Pools are u64 bigints in
the source, modelled as naturals cast to rationals where the source applies
`Number(...)`.  The remaining `UnifiedMarket` fields (volume, url, dates)
do not enter the pricing claims and are omitted. -/
def mapBooleanOutcomes (yesPool noPool : ℕ) (pubkey : String) : List BaoziOutcome :=
  let totalPool := yesPool + noPool
  let yesPrice : ℚ := if 0 < totalPool then (noPool : ℚ) / (totalPool : ℚ) else 1/2
  let noPrice : ℚ := if 0 < totalPool then (yesPool : ℚ) / (totalPool : ℚ) else 1/2
  [ { outcomeId := pubkey ++ "-YES", label := "Yes", price := yesPrice }
  , { outcomeId := pubkey ++ "-NO", label := "No", price := noPrice } ]

/-- `Math.min(Math.max(price, 0), 1)` from `mapRaceToUnified`. -/
def clamp01 (x : ℚ) : ℚ := min (max x 0) 1

/-- Raw per-outcome race price from `mapRaceToUnified`:
`(totalPool - pool) / (totalPool * (outcomeCount - 1))` when the total pool
is positive, `1 / outcomeCount` otherwise.  The subtraction happens on
signed bigints in the source, hence the subtraction is taken in `ℚ`. -/
def raceRawPrice (totalPool outcomeCount pool : ℕ) : ℚ :=
  if 0 < totalPool then
    ((totalPool : ℚ) - (pool : ℚ)) / ((totalPool : ℚ) * ((outcomeCount : ℚ) - 1))
  else 1 / (outcomeCount : ℚ)

/-- The clamped per-outcome prices produced by the `for` loop of
`mapRaceToUnified` (loop index `i` ranges over `0 ≤ i < outcomeCount`,
reading `outcomePools[i]`; `parseRaceMarket` returns exactly
`outcomeCount` pool entries). -/
def raceClampedPrices (outcomeCount : ℕ) (outcomePools : List ℕ) (totalPool : ℕ) :
    List ℚ :=
  (List.range outcomeCount).map
    (fun i => clamp01 (raceRawPrice totalPool outcomeCount (outcomePools.getD i 0)))

/-- Final outcome prices of `mapRaceToUnified`: the clamped prices, each
divided by their sum when that sum is positive, otherwise left as-is. -/
def mapRacePrices (outcomeCount : ℕ) (outcomePools : List ℕ) (totalPool : ℕ) :
    List ℚ :=
  let prices := raceClampedPrices outcomeCount outcomePools totalPool
  let priceSum := prices.sum
  if 0 < priceSum then prices.map (fun p => p / priceSum) else prices

-- ===========================================================================
-- Borsh fixed-layout account reader
-- (src/core/src/exchanges/baozi/utils.ts, class BorshReader)
-- ===========================================================================

/-- Cursor-based reader over a byte buffer (bytes are naturals `< 256` in
decoded buffers; the reads themselves do not depend on that bound). -/
structure BorshReader where
  buf : List ℕ
  offset : ℕ
deriving DecidableEq, Repr

/-- Little-endian value of a byte list (`Buffer.readUIntLE`-style). -/
def bytesLE (bs : List ℕ) : ℕ := bs.foldr (fun b acc => b + 256 * acc) 0

/-- `readU8`: Node's `Buffer.readUInt8` throws `ERR_OUT_OF_RANGE` when the
read would extend past the end of the buffer, modelled as `none`. -/
def BorshReader.readU8 (r : BorshReader) : Option (ℕ × BorshReader) :=
  if r.offset + 1 ≤ r.buf.length then
    some (r.buf.getD r.offset 0, { r with offset := r.offset + 1 })
  else none

/-- `readU16`: `Buffer.readUInt16LE`, bounds-checked. -/
def BorshReader.readU16 (r : BorshReader) : Option (ℕ × BorshReader) :=
  if r.offset + 2 ≤ r.buf.length then
    some (bytesLE ((r.buf.drop r.offset).take 2), { r with offset := r.offset + 2 })
  else none

/-- `readU64`: `Buffer.readBigUInt64LE`, bounds-checked. -/
def BorshReader.readU64 (r : BorshReader) : Option (ℕ × BorshReader) :=
  if r.offset + 8 ≤ r.buf.length then
    some (bytesLE ((r.buf.drop r.offset).take 8), { r with offset := r.offset + 8 })
  else none

/-- `readI64`: `Buffer.readBigInt64LE`, bounds-checked, two's complement. -/
def BorshReader.readI64 (r : BorshReader) : Option (ℤ × BorshReader) :=
  if r.offset + 8 ≤ r.buf.length then
    let u := bytesLE ((r.buf.drop r.offset).take 8)
    some (if u < 2 ^ 63 then (u : ℤ) else (u : ℤ) - 2 ^ 64,
      { r with offset := r.offset + 8 })
  else none

/-- `readBool`: `this.readU8() === 1`. -/
def BorshReader.readBool (r : BorshReader) : Option (Bool × BorshReader) :=
  (r.readU8).map (fun vr => (vr.1 == 1, vr.2))

/-- `readPubkey`: `buf.subarray(offset, offset + 32)` — Node's `subarray`
CLAMPS the range to the buffer, so a read past the end silently returns a
truncated byte sequence, and the cursor still advances by 32.  The bs58
rendering of the bytes is kept abstract (the raw bytes are returned). -/
def BorshReader.readPubkey (r : BorshReader) : Option (List ℕ × BorshReader) :=
  some ((r.buf.drop r.offset).take 32, { r with offset := r.offset + 32 })

/-- `readString`: 4-byte little-endian length prefix (`readUInt32LE`,
bounds-checked and throwing on underrun) followed by `len` payload bytes
taken with `subarray` (clamping, never throwing); the cursor advances by
`4 + len` even when the payload was truncated.  UTF-8 decoding is kept
abstract (the payload bytes are returned). -/
def BorshReader.readString (r : BorshReader) : Option (List ℕ × BorshReader) :=
  if r.offset + 4 ≤ r.buf.length then
    let len := bytesLE ((r.buf.drop r.offset).take 4)
    some ((r.buf.drop (r.offset + 4)).take len,
      { r with offset := r.offset + 4 + len })
  else none

/-- `readOptionBool`: 1-byte presence flag, then a bool when nonzero. -/
def BorshReader.readOptionBool (r : BorshReader) : Option (Option Bool × BorshReader) :=
  match r.readU8 with
  | none => none
  | some (flag, r1) =>
    if flag = 0 then some (none, r1)
    else (r1.readBool).map (fun vr => (some vr.1, vr.2))

/-- `readOptionU8`: 1-byte presence flag, then a u8 when nonzero. -/
def BorshReader.readOptionU8 (r : BorshReader) : Option (Option ℕ × BorshReader) :=
  match r.readU8 with
  | none => none
  | some (flag, r1) =>
    if flag = 0 then some (none, r1)
    else (r1.readU8).map (fun vr => (some vr.1, vr.2))

/-- `readOptionPubkey`: 1-byte presence flag, then a pubkey when nonzero. -/
def BorshReader.readOptionPubkey (r : BorshReader) : Option (Option (List ℕ) × BorshReader) :=
  match r.readU8 with
  | none => none
  | some (flag, r1) =>
    if flag = 0 then some (none, r1)
    else (r1.readPubkey).map (fun vr => (some vr.1, vr.2))

/-- `readFixedBytes(len)`: `subarray`-based, clamping, never throwing; the
cursor advances by `len` regardless. -/
def BorshReader.readFixedBytes (r : BorshReader) (len : ℕ) : Option (List ℕ × BorshReader) :=
  some ((r.buf.drop r.offset).take len, { r with offset := r.offset + len })

/-- `readOptionFixedBytes(len)`: 1-byte presence flag, then fixed bytes. -/
def BorshReader.readOptionFixedBytes (r : BorshReader) (len : ℕ) :
    Option (Option (List ℕ) × BorshReader) :=
  match r.readU8 with
  | none => none
  | some (flag, r1) =>
    if flag = 0 then some (none, r1)
    else (r1.readFixedBytes len).map (fun vr => (some vr.1, vr.2))

/-- `skip(len)`: advances the cursor unconditionally. -/
def BorshReader.skip (r : BorshReader) (len : ℕ) : BorshReader :=
  { r with offset := r.offset + len }

-- ===========================================================================
-- Throttler (src/core/src/utils/throttler.ts, class Throttler)
-- ===========================================================================

structure ThrottlerConfig where
  refillRate : ℚ
  capacity : ℚ
  delay : ℚ
deriving DecidableEq, Repr

/-- The mutable fields of a `Throttler`: the token balance, the FIFO queue
of waiting calls (each entry is that call's cost), and the wall-clock time
of the last refill (`0` until the first loop iteration). -/
structure ThrottlerState where
  tokens : ℚ
  queue : List ℚ
  lastTimestamp : ℚ
deriving DecidableEq, Repr

/-- The refill step at the top of `Throttler.loop`: when a previous
timestamp exists, bank `elapsed * refillRate` tokens clamped to capacity;
either way record `now`. -/
def Throttler.refill (cfg : ThrottlerConfig) (now : ℚ) (s : ThrottlerState) :
    ThrottlerState :=
  if 0 < s.lastTimestamp then
    { s with
        tokens := min (s.tokens + (now - s.lastTimestamp) * cfg.refillRate) cfg.capacity
        lastTimestamp := now }
  else { s with lastTimestamp := now }

/-- One iteration of `Throttler.loop` at wall-clock time `now`: refill,
then serve (resolve and dequeue) the queue head when `tokens >= 0`,
otherwise sleep.  The boolean reports whether the head was served in this
iteration. -/
def Throttler.loopStep (cfg : ThrottlerConfig) (now : ℚ) (s : ThrottlerState) :
    ThrottlerState × Bool :=
  let s1 := Throttler.refill cfg now s
  match s1.queue with
  | [] => (s1, false)
  | cost :: rest =>
    if 0 ≤ s1.tokens then
      ({ s1 with tokens := s1.tokens - cost, queue := rest }, true)
    else (s1, false)

-- ===========================================================================
-- Kalshi cursor pagination and module-level cache
-- (src/core/src/exchanges/kalshi/fetchMarkets.ts)
-- ===========================================================================

/-- One event as returned by the Kalshi events endpoint; only the nested
market records matter for the pagination and cache claims (each market
payload is abstracted to an opaque natural). -/
structure KalshiEvent where
  markets : List ℕ
deriving DecidableEq, Repr

/-- One page of the cursor-paginated events endpoint. -/
structure KalshiPage where
  events : List KalshiEvent
  cursor : Option String
deriving DecidableEq, Repr

/-- JS truthiness of `response.data.cursor` (`null`/`undefined`/empty
string are falsy). -/
def cursorTruthy : Option String → Bool
  | none => false
  | some s => !(s == "")

inductive StopReason
  | emptyPage
  | targetReached
  | cursorExhausted
  | capReached
deriving DecidableEq, Repr

structure LoopResult where
  events : List KalshiEvent
  fetches : ℕ
  totalMarkets : ℕ
  reason : StopReason
deriving DecidableEq, Repr

/-- `MAX_PAGES = 100` — the safety cap of `fetchAllActiveMarkets`. -/
def MAX_PAGES : ℕ := 100

/-- The hardcoded early-termination threshold of `fetchAllActiveMarkets`
(source comment: `5000 * 1.5`). -/
def MARKET_TARGET : ℕ := 7500

/-- The `do/while` pagination loop of `fetchAllActiveMarkets`, with the
response stream modelled as a function from page index to page.  `fuel`
only bounds the recursion; from the entry point `kalshiFetchLoop` the
`page < MAX_PAGES` check always fires before fuel runs out.  The body:
fetch, stop on an empty page, append, count nested markets, stop once
`MARKET_TARGET` raw markets were seen, then re-enter while the cursor is
truthy and `page < MAX_PAGES`. -/
def kalshiPaginate (resp : ℕ → KalshiPage) :
    ℕ → ℕ → ℕ → List KalshiEvent → LoopResult
  | 0, _, total, acc => ⟨acc, 0, total, StopReason.capReached⟩
  | fuel + 1, page, total, acc =>
    let p := resp page
    if p.events.isEmpty then ⟨acc, 1, total, StopReason.emptyPage⟩
    else
      let acc' := acc ++ p.events
      let total' := total + (p.events.map (fun e => e.markets.length)).sum
      if MARKET_TARGET ≤ total' then ⟨acc', 1, total', StopReason.targetReached⟩
      else if cursorTruthy p.cursor = false then
        ⟨acc', 1, total', StopReason.cursorExhausted⟩
      else if MAX_PAGES ≤ page + 1 then ⟨acc', 1, total', StopReason.capReached⟩
      else
        let r := kalshiPaginate resp fuel (page + 1) total' acc'
        ⟨r.events, r.fetches + 1, r.totalMarkets, r.reason⟩

/-- Entry point of the pagination loop (cursor empty, page 0). -/
def kalshiFetchLoop (resp : ℕ → KalshiPage) : LoopResult :=
  kalshiPaginate resp MAX_PAGES 0 0 []

/-- `CACHE_TTL = 10 * 60 * 1000` milliseconds. -/
def CACHE_TTL : ℤ := 10 * 60 * 1000

/-- The module-level (file-scope) mutable state of
`kalshi/fetchMarkets.ts`: `globalMarketCache`, `globalSeriesMap` and
`lastCacheTime`.  It is owned by the module, not by any `KalshiExchange`
instance. -/
structure KalshiGlobalState where
  marketCache : String → Option (List ℕ)
  seriesMap : Option (List (String × List String))
  lastCacheTime : String → Option ℤ

def emptyKalshiState : KalshiGlobalState :=
  { marketCache := fun _ => none, seriesMap := none, lastCacheTime := fun _ => none }

/-- `resetCache()` re-initialises all three module-level slots. -/
def resetCache : KalshiGlobalState → KalshiGlobalState :=
  fun _ => emptyKalshiState

/-- The cache guard of `fetchAllActiveMarkets`:
`globalMarketCache[status] && globalSeriesMap && (now - (lastCacheTime[status] || 0) < CACHE_TTL)`
(an empty cached array is truthy in JS, hence `isSome`). -/
def cacheHit (st : KalshiGlobalState) (now : ℤ) (status : String) : Bool :=
  (st.marketCache status).isSome && st.seriesMap.isSome &&
    decide (now - ((st.lastCacheTime status).getD 0) < CACHE_TTL)

/-- Flattening of all nested markets out of the fetched events
(`mapMarketToUnified` and the series-tag enrichment are per-record pure
transforms that do not affect the caching behaviour; they are abstracted
to the identity on the opaque market payloads). -/
def extractMarkets (events : List KalshiEvent) : List ℕ :=
  events.flatMap (fun e => e.markets)

structure FetchOutcome where
  result : List ℕ
  state : KalshiGlobalState
  pageFetches : ℕ

/-- `fetchAllActiveMarkets(status)` as a function of the module-level
state.  The first argument stands for the `KalshiExchange` instance making
the call; the source function cannot depend on it because the cache lives
at module scope, and the embedding makes that visible by ignoring it. -/
def fetchAllActiveMarkets (_inst : ℕ) (now : ℤ) (status : String)
    (resp : ℕ → KalshiPage) (series : List (String × List String))
    (st : KalshiGlobalState) : FetchOutcome :=
  if cacheHit st now status then
    { result := (st.marketCache status).getD [], state := st, pageFetches := 0 }
  else
    let lr := kalshiFetchLoop resp
    let allMarkets := extractMarkets lr.events
    { result := allMarkets
      state :=
        { marketCache := fun s => if s = status then some allMarkets else st.marketCache s
          seriesMap := some series
          lastCacheTime := fun s => if s = status then some now else st.lastCacheTime s }
      pageFetches := lr.fetches }

/-- Test-vector response stream: the first page carries one event with 200
nested markets and a live cursor, the second page is empty. -/
def respTwoPages : ℕ → KalshiPage := fun page =>
  if page = 0 then ⟨[⟨List.replicate 200 0⟩], some "c"⟩ else ⟨[], some "c"⟩

/-- Test-vector response stream: every page carries one event with 7500
nested markets, enough to trip the early-termination target at once. -/
def respTargetPage : ℕ → KalshiPage := fun _ =>
  ⟨[⟨List.replicate 7500 0⟩], some "c"⟩

-- ===========================================================================
-- Polymarket realtime channel
-- (src/core/src/exchanges/polymarket/websocket.ts, class PolymarketWebSocket)
-- ===========================================================================

/-- Pending-promise maps (`Map<string, QueuedPromise[]>`) are modelled as
association lists from id to the list of pending resolvers; resolvers are
abstracted to opaque naturals. -/
def lookupResolvers (m : List (String × List ℕ)) (k : String) : List ℕ :=
  (m.lookup k).getD []

/-- `Map.set`: replace the entry for the key, or append a fresh one. -/
def setResolvers : List (String × List ℕ) → String → List ℕ → List (String × List ℕ)
  | [], k, v => [(k, v)]
  | (k', v') :: rest, k, v =>
    if k' = k then (k, v) :: rest else (k', v') :: setResolvers rest k v

/-- The mutable fields of a `PolymarketWebSocket`: the cached per-id order
books, the per-id pending `watchOrderBook`/`watchTrades` resolvers, and the
vendor subscription manager's asset list. -/
structure PolyState where
  orderBooks : String → Option OrderBook
  orderBookResolvers : List (String × List ℕ)
  tradeResolvers : List (String × List ℕ)
  vendorAssets : List String

/-- `b.price - a.price` comparator: stable sort, non-increasing by price. -/
def sortBids (l : List OrderLevel) : List OrderLevel :=
  l.mergeSort (fun a b => decide (b.price ≤ a.price))

/-- `a.price - b.price` comparator: stable sort, non-decreasing by price. -/
def sortAsks (l : List OrderLevel) : List OrderLevel :=
  l.mergeSort (fun a b => decide (a.price ≤ b.price))

/-- `resolveOrderBook(id, book)`: when pending resolvers exist for the id,
resolve them all (returned as the second component) and clear the entry;
otherwise do nothing. -/
def resolveOrderBook (id : String) (st : PolyState) : PolyState × List ℕ :=
  let rs := lookupResolvers st.orderBookResolvers id
  if rs.isEmpty then (st, [])
  else
    ({ st with orderBookResolvers := setResolvers st.orderBookResolvers id [] }, rs)

/-- A `book` (full snapshot) event. -/
structure BookEvent where
  assetId : String
  bids : List OrderLevel
  asks : List OrderLevel
  timestamp : ℤ

/-- `handleBookSnapshot`: sort both sides, replace the cached book outright,
resolve all pending order-book resolvers for the id. -/
def handleBookSnapshot (ev : BookEvent) (st : PolyState) : PolyState × List ℕ :=
  let ob : OrderBook :=
    { bids := sortBids ev.bids, asks := sortAsks ev.asks, timestamp := ev.timestamp }
  resolveOrderBook ev.assetId
    { st with orderBooks := fun k => if k = ev.assetId then some ob else st.orderBooks k }

/-- One entry of a `price_change` event's `price_changes` array. -/
structure PriceChange where
  assetId : String
  price : ℚ
  size : ℚ
  side : String
deriving Repr

/-- The level mutation of `handlePriceChange` on one side's level list:
size `0` removes the level at the change's price (`splice`, when present);
a nonzero size updates the level in place (`levels[i].size = size` keeps
the price, and the found level's price equals the searched price, hence the
`List.set` with the searched price is the identical record) or pushes the
new level and re-sorts the side. -/
def applyDeltaToLevels (isBuy : Bool) (price size : ℚ) (levels : List OrderLevel) :
    List OrderLevel :=
  let idx := levels.findIdx (fun l => l.price == price)
  if size = 0 then
    if idx < levels.length then levels.eraseIdx idx else levels
  else
    if idx < levels.length then levels.set idx ⟨price, size⟩
    else if isBuy then sortBids (levels ++ [⟨price, size⟩])
    else sortAsks (levels ++ [⟨price, size⟩])

/-- `handlePriceChange`, one delta: when no snapshot is cached for the id
the delta is skipped (`continue`) — no state change, no resolution;
otherwise the change's side is mutated via `applyDeltaToLevels`, the
timestamp refreshed, and the pending resolvers for the id are resolved with
the mutated book. -/
def applyPriceChange (ts : ℤ) (ch : PriceChange) (st : PolyState) :
    PolyState × List ℕ :=
  match st.orderBooks ch.assetId with
  | none => (st, [])
  | some book =>
    let isBuy := ch.side.toUpper == "BUY"
    let levels := if isBuy then book.bids else book.asks
    let levels' := applyDeltaToLevels isBuy ch.price ch.size levels
    let book' :=
      if isBuy then { book with bids := levels', timestamp := ts }
      else { book with asks := levels', timestamp := ts }
    resolveOrderBook ch.assetId
      { st with orderBooks := fun k => if k = ch.assetId then some book' else st.orderBooks k }

/-- The §3 invariant on one side: bids are non-increasing by price. -/
def BidsSorted (l : List OrderLevel) : Prop :=
  l.Pairwise (fun a b => b.price ≤ a.price)

/-- The §3 invariant on one side: asks are non-decreasing by price. -/
def AsksSorted (l : List OrderLevel) : Prop :=
  l.Pairwise (fun a b => a.price ≤ b.price)

/-- All cached books of a channel state satisfy the §3 sortedness
invariant. -/
def StateSorted (st : PolyState) : Prop :=
  ∀ id ob, st.orderBooks id = some ob → BidsSorted ob.bids ∧ AsksSorted ob.asks

/-- `PolymarketWebSocket.close()`: the body only awaits
`this.manager.clearState()`, which tears down the vendor subscriptions.
Neither `orderBookResolvers` nor `tradeResolvers` is touched and no pending
promise is rejected — the second component (the rejected resolvers) is
always empty. -/
def PolymarketWebSocket.close (st : PolyState) : PolyState × List ℕ :=
  ({ st with vendorAssets := [] }, [])

-- ===========================================================================
-- Baozi realtime channel (BaoziWebSocket)
-- ===========================================================================

/-- The mutable fields of a `BaoziWebSocket`: per-market pending resolvers
and the `onAccountChange` subscription ids. -/
structure BaoziWsState where
  orderBookResolvers : List (String × List ℕ)
  subscriptions : List (String × ℕ)
deriving DecidableEq, Repr

/-- `BaoziWebSocket.close()`: removes every account-change listener, clears
the subscription map, rejects every pending resolver with a WebSocket-closed
error and clears the resolver map.  The second component lists the rejected
resolvers. -/
def BaoziWebSocket.close (st : BaoziWsState) : BaoziWsState × List ℕ :=
  ({ orderBookResolvers := [], subscriptions := [] },
    st.orderBookResolvers.flatMap (fun p => p.2))

-- ===========================================================================
-- Helper lemmas
-- ===========================================================================

lemma range_map_getD (l : List ℕ) (f : ℕ → ℚ) :
    (List.range l.length).map (fun i => f (l.getD i 0)) = l.map f := by
  induction l with
  | nil => simp
  | cons a t ih =>
    rw [List.length_cons, List.range_succ_eq_map]
    simp only [List.map_cons, List.map_map, List.getD_cons_zero]
    refine congrArg (f a :: ·) ?_
    simp only [Function.comp_def, List.getD_cons_succ]
    exact ih

lemma sum_map_sub_cast (l : List ℕ) (T : ℚ) :
    (l.map (fun p : ℕ => T - (p : ℚ))).sum = l.length * T - (l.sum : ℚ) := by
  induction l with
  | nil => simp
  | cons a t ih =>
    simp only [List.map_cons, List.sum_cons, ih, List.length_cons]
    push_cast
    ring

lemma kalshiPaginate_fetches_le (resp : ℕ → KalshiPage) :
    ∀ (fuel page total : ℕ) (acc : List KalshiEvent),
      (kalshiPaginate resp fuel page total acc).fetches ≤ fuel := by
  intro fuel
  induction fuel with
  | zero => intro page total acc; simp [kalshiPaginate]
  | succ n ih =>
    intro page total acc
    simp only [kalshiPaginate]
    repeat' split
    all_goals
      first
        | exact Nat.succ_le_succ (Nat.zero_le n)
        | exact Nat.succ_le_succ (ih (page + 1) _ _)

lemma kalshiPaginate_target_sound (resp : ℕ → KalshiPage) :
    ∀ (fuel page total : ℕ) (acc : List KalshiEvent),
      (kalshiPaginate resp fuel page total acc).reason = StopReason.targetReached →
      MARKET_TARGET ≤ (kalshiPaginate resp fuel page total acc).totalMarkets := by
  intro fuel
  induction fuel with
  | zero => intro page total acc h; simp [kalshiPaginate] at h
  | succ n ih =>
    intro page total acc
    simp only [kalshiPaginate]
    repeat' split
    all_goals intro h
    all_goals
      first
        | exact StopReason.noConfusion h
        | assumption
        | exact ih (page + 1) _ _ h

lemma kalshiPaginate_first_target (resp : ℕ → KalshiPage) (fuel page total : ℕ)
    (acc : List KalshiEvent)
    (hne : (resp page).events.isEmpty = false)
    (htar : MARKET_TARGET ≤ total + ((resp page).events.map (fun e => e.markets.length)).sum) :
    kalshiPaginate resp (fuel + 1) page total acc =
      ⟨acc ++ (resp page).events, 1,
        total + ((resp page).events.map (fun e => e.markets.length)).sum,
        StopReason.targetReached⟩ := by
  simp only [kalshiPaginate, hne, Bool.false_eq_true, if_false]
  rw [if_pos htar]

lemma bidsSorted_iff_map (l : List OrderLevel) :
    BidsSorted l ↔ (l.map OrderLevel.price).Pairwise (fun a b => b ≤ a) := by
  rw [BidsSorted, List.pairwise_map]

lemma asksSorted_iff_map (l : List OrderLevel) :
    AsksSorted l ↔ (l.map OrderLevel.price).Pairwise (fun a b => a ≤ b) := by
  rw [AsksSorted, List.pairwise_map]

lemma sortBids_sorted (l : List OrderLevel) : BidsSorted (sortBids l) := by
  have h := @List.sorted_mergeSort OrderLevel
    (fun a b : OrderLevel => decide (b.price ≤ a.price))
    (fun a b c hab hbc => by
      simp only [decide_eq_true_eq] at hab hbc ⊢
      exact le_trans hbc hab)
    (fun a b => by
      simp only [Bool.or_eq_true, decide_eq_true_eq]
      exact le_total b.price a.price)
    l
  exact h.imp (fun hab => by simpa using hab)

lemma sortAsks_sorted (l : List OrderLevel) : AsksSorted (sortAsks l) := by
  have h := @List.sorted_mergeSort OrderLevel
    (fun a b : OrderLevel => decide (a.price ≤ b.price))
    (fun a b c hab hbc => by
      simp only [decide_eq_true_eq] at hab hbc ⊢
      exact le_trans hab hbc)
    (fun a b => by
      simp only [Bool.or_eq_true, decide_eq_true_eq]
      exact le_total a.price b.price)
    l
  exact h.imp (fun hab => by simpa using hab)

lemma set_eq_self_of_getElem (m : List ℚ) (i : ℕ) (x : ℚ)
    (h : m[i]? = some x) : m.set i x = m := by
  induction m generalizing i with
  | nil => simp at h
  | cons a t ih =>
    cases i with
    | zero =>
      simp only [List.getElem?_cons_zero, Option.some_inj] at h
      simp [h]
    | succ n =>
      simp only [List.getElem?_cons_succ] at h
      simp [ih n h]

lemma map_price_applyDelta_set (price size : ℚ) (levels : List OrderLevel)
    (hidx : levels.findIdx (fun l => l.price == price) < levels.length) :
    (levels.set (levels.findIdx (fun l => l.price == price)) ⟨price, size⟩).map
        OrderLevel.price = levels.map OrderLevel.price := by
  rw [List.map_set]
  apply set_eq_self_of_getElem
  rw [List.getElem?_map, List.getElem?_eq_getElem hidx]
  have hp := @List.findIdx_getElem _ (fun l => l.price == price) levels hidx
  simp only [beq_iff_eq] at hp
  simp [hp]

lemma applyDelta_bids_sorted (price size : ℚ) (levels : List OrderLevel)
    (hs : BidsSorted levels) :
    BidsSorted (applyDeltaToLevels true price size levels) := by
  simp only [applyDeltaToLevels]
  split
  · split
    · exact List.Pairwise.sublist (List.eraseIdx_sublist _ _) hs
    · exact hs
  · split
    · rename_i hidx
      rw [bidsSorted_iff_map, map_price_applyDelta_set price size levels hidx,
        ← bidsSorted_iff_map]
      exact hs
    · simp only [if_true]
      exact sortBids_sorted _

lemma applyDelta_asks_sorted (price size : ℚ) (levels : List OrderLevel)
    (hs : AsksSorted levels) :
    AsksSorted (applyDeltaToLevels false price size levels) := by
  simp only [applyDeltaToLevels]
  split
  · split
    · exact List.Pairwise.sublist (List.eraseIdx_sublist _ _) hs
    · exact hs
  · split
    · rename_i hidx
      rw [asksSorted_iff_map, map_price_applyDelta_set price size levels hidx,
        ← asksSorted_iff_map]
      exact hs
    · simp only [Bool.false_eq_true, if_false]
      exact sortAsks_sorted _

lemma resolveOrderBook_orderBooks (id : String) (st : PolyState) :
    ((resolveOrderBook id st).1).orderBooks = st.orderBooks := by
  simp only [resolveOrderBook]
  split <;> rfl

-- ===========================================================================
-- Claim theorems
-- ===========================================================================

/-- C1: execution-price computation. `getExecutionPrice` is the price field
of the detailed result; on the spec's book
`bids=[(0.50,100)], asks=[(0.55,50),(0.60,200)]`, buying 50 fills fully at
0.55, buying 100 fills fully at 0.575, buying 500 fills only 250 (not fully
filled), an empty book yields price 0, and selling consumes bids from the
highest price downward. -/
theorem execution_price_spec :
    (∀ (b : OrderBook) (s : Side) (a : ℚ),
      getExecutionPrice b s a = (getExecutionPriceDetailed b s a).price)
    ∧ getExecutionPriceDetailed specBook Side.buy 50 =
        { price := 11/20, filledAmount := 50, fullyFilled := true }
    ∧ getExecutionPriceDetailed specBook Side.buy 100 =
        { price := 23/40, filledAmount := 100, fullyFilled := true }
    ∧ (getExecutionPriceDetailed specBook Side.buy 500).filledAmount = 250
    ∧ (getExecutionPriceDetailed specBook Side.buy 500).fullyFilled = false
    ∧ getExecutionPrice { bids := [], asks := [], timestamp := 0 } Side.buy 10 = 0
    ∧ getExecutionPriceDetailed specBook Side.sell 60 =
        { price := 1/2, filledAmount := 60, fullyFilled := true } := by
  refine ⟨fun b s a => rfl, ?_, ?_, ?_, ?_, ?_, ?_⟩ <;>
    norm_num [getExecutionPrice, getExecutionPriceDetailed, fillAgainstLevels, specBook]

/-- C2: binary pari-mutuel pricing. For every decoded two-outcome Baozi
market the YES price is `noPool / (yesPool + noPool)` and the NO price is
`yesPool / (yesPool + noPool)`; a zero total pool yields 0.5 for both; and
`yesPool = 30, noPool = 70` yields YES 0.70 and NO 0.30. -/
theorem baozi_binary_pricing :
    (∀ (y n : ℕ) (pk : String), 0 < y + n →
      (mapBooleanOutcomes y n pk).map BaoziOutcome.price =
        [(n : ℚ) / ((y : ℚ) + (n : ℚ)), (y : ℚ) / ((y : ℚ) + (n : ℚ))])
    ∧ (∀ (y n : ℕ) (pk : String), y + n = 0 →
      (mapBooleanOutcomes y n pk).map BaoziOutcome.price = [1/2, 1/2])
    ∧ (mapBooleanOutcomes 30 70 "mkt").map BaoziOutcome.price = [7/10, 3/10] := by
  refine ⟨?_, ?_, ?_⟩
  · intro y n pk h
    simp only [mapBooleanOutcomes, if_pos h, List.map_cons, List.map_nil]
    push_cast
    rfl
  · intro y n pk h
    simp [mapBooleanOutcomes, h]
  · norm_num [mapBooleanOutcomes]

/-- C2 witness: the general formula applied at `yesPool = 30, noPool = 70`. -/
theorem baozi_binary_pricing_witness :
    (mapBooleanOutcomes 30 70 "mkt").map BaoziOutcome.price = [7/10, 3/10] := by
  have h := baozi_binary_pricing.1 30 70 "mkt" (by norm_num)
  norm_num at h
  exact h

/-- C3 counterexample: a decodable race-market field assignment with a
positive total pool (`outcomeCount = 2`, `outcomePools = [5, 5]`,
`totalPool = 3` — the decoder does not force the pools to sum to the total
pool) on which every raw price is negative, clamping sends both to 0, the
renormalisation guard `priceSum > 0` fails, and the final prices sum to 0,
not 1. -/
theorem race_prices_counterexample :
    (mapRacePrices 2 [5, 5] 3).sum = 0 ∧ (0 : ℕ) < 3 := by
  constructor
  · norm_num [mapRacePrices, raceClampedPrices, raceRawPrice, clamp01, List.range_succ]
  · norm_num

/-- C3 amended: for every decoded race market with a positive total pool
WHOSE OUTCOME POOLS SUM TO THE TOTAL POOL and with at least two outcomes,
no clamping occurs and the final prices sum to exactly 1. -/
theorem race_prices_sum_to_one (pools : List ℕ) (totalPool : ℕ)
    (hsum : pools.sum = totalPool) (hpos : 0 < totalPool) (hn : 2 ≤ pools.length) :
    (mapRacePrices pools.length pools totalPool).sum = 1 := by
  have hT : (0 : ℚ) < (totalPool : ℚ) := by exact_mod_cast hpos
  have hn' : (2 : ℚ) ≤ (pools.length : ℚ) := by exact_mod_cast hn
  have hD : (0 : ℚ) < (totalPool : ℚ) * ((pools.length : ℚ) - 1) := by
    apply mul_pos hT; linarith
  have hclamp : raceClampedPrices pools.length pools totalPool
      = pools.map (fun p : ℕ =>
          ((totalPool : ℚ) - (p : ℚ)) / ((totalPool : ℚ) * ((pools.length : ℚ) - 1))) := by
    rw [raceClampedPrices]
    refine (range_map_getD pools
      (fun p => clamp01 (raceRawPrice totalPool pools.length p))).trans ?_
    refine List.map_congr_left ?_
    intro p hp
    have hple : p ≤ totalPool := hsum ▸ List.le_sum_of_mem hp
    have hple' : (p : ℚ) ≤ (totalPool : ℚ) := by exact_mod_cast hple
    have hraw0 : (0 : ℚ) ≤
        ((totalPool : ℚ) - (p : ℚ)) / ((totalPool : ℚ) * ((pools.length : ℚ) - 1)) := by
      apply div_nonneg (by linarith) (le_of_lt hD)
    have hraw1 :
        ((totalPool : ℚ) - (p : ℚ)) / ((totalPool : ℚ) * ((pools.length : ℚ) - 1)) ≤ 1 := by
      rw [div_le_one hD]
      nlinarith
    rw [raceRawPrice, if_pos hpos, clamp01, max_eq_left hraw0, min_eq_left hraw1]
  have hone : ((pools.length : ℚ) * totalPool - (totalPool : ℚ))
      = (totalPool : ℚ) * ((pools.length : ℚ) - 1) := by ring
  have hsum1 : (raceClampedPrices pools.length pools totalPool).sum = 1 := by
    rw [hclamp]
    simp only [div_eq_mul_inv]
    rw [List.sum_map_mul_right, sum_map_sub_cast, hsum, hone,
      mul_inv_cancel₀ (ne_of_gt hD)]
  simp only [mapRacePrices, hsum1]
  norm_num
  exact hsum1

/-- C3 witness: the amended theorem at `pools = [30, 70]`,
`totalPool = 100`. -/
theorem race_prices_sum_to_one_witness :
    (mapRacePrices 2 [30, 70] 100).sum = 1 :=
  race_prices_sum_to_one [30, 70] 100 (by norm_num) (by norm_num) (by norm_num)

/-- C9 counterexample: `readPubkey` on a 3-byte buffer extends past the end
of the buffer yet succeeds, silently returning the 3 available (truncated)
bytes instead of failing with a decode error, and the cursor still advances
to 32; likewise `readFixedBytes(4)` on a 2-byte buffer. -/
theorem borsh_truncation_counterexample :
    ((BorshReader.mk [1, 2, 3] 0).readPubkey =
      some ([1, 2, 3], BorshReader.mk [1, 2, 3] 32))
    ∧ (3 : ℕ) < 0 + 32
    ∧ ((BorshReader.mk [1, 2] 0).readFixedBytes 4 =
      some ([1, 2], BorshReader.mk [1, 2] 4)) := by
  refine ⟨rfl, by norm_num, rfl⟩

/-- C9 amended: every typed read advances the cursor exactly by the type's
width (u8 by 1, u16 by 2, u64/i64 by 8, bool by 1, pubkey by 32, string by
4 plus the declared length, fixed bytes by the requested length, optional
variants by 1 plus the payload width); the fixed-width integer reads, the
bool read and the string's 4-byte length prefix fail loudly (decode error)
when they would extend past the end of the buffer, but the
`subarray`-based reads (pubkey, string payload, fixed bytes) never fail —
they silently return truncated data while still advancing the cursor by the
full width. -/
theorem borsh_reader_contract (r : BorshReader) :
    ((r.readU8).isSome ↔ r.offset + 1 ≤ r.buf.length)
    ∧ (∀ v r', r.readU8 = some (v, r') → r'.offset = r.offset + 1 ∧ r'.buf = r.buf)
    ∧ ((r.readU16).isSome ↔ r.offset + 2 ≤ r.buf.length)
    ∧ (∀ v r', r.readU16 = some (v, r') → r'.offset = r.offset + 2 ∧ r'.buf = r.buf)
    ∧ ((r.readU64).isSome ↔ r.offset + 8 ≤ r.buf.length)
    ∧ (∀ v r', r.readU64 = some (v, r') → r'.offset = r.offset + 8 ∧ r'.buf = r.buf)
    ∧ ((r.readI64).isSome ↔ r.offset + 8 ≤ r.buf.length)
    ∧ (∀ v r', r.readI64 = some (v, r') → r'.offset = r.offset + 8 ∧ r'.buf = r.buf)
    ∧ ((r.readBool).isSome ↔ r.offset + 1 ≤ r.buf.length)
    ∧ (∀ v r', r.readBool = some (v, r') → r'.offset = r.offset + 1 ∧ r'.buf = r.buf)
    ∧ (r.readPubkey =
        some ((r.buf.drop r.offset).take 32, BorshReader.mk r.buf (r.offset + 32)))
    ∧ ((r.readString).isSome ↔ r.offset + 4 ≤ r.buf.length)
    ∧ (∀ v r', r.readString = some (v, r') →
        r'.offset = r.offset + 4 + bytesLE ((r.buf.drop r.offset).take 4) ∧ r'.buf = r.buf)
    ∧ (∀ len, r.readFixedBytes len =
        some ((r.buf.drop r.offset).take len, BorshReader.mk r.buf (r.offset + len)))
    ∧ (∀ r', r.readU8 = some (0, r') →
        r.readOptionBool = some (none, r') ∧ r.readOptionU8 = some (none, r')
          ∧ r.readOptionPubkey = some (none, r'))
    ∧ (∀ v r', r.readU8 = some (v, r') → v ≠ 0 →
        r.readOptionPubkey =
          some (some ((r.buf.drop (r.offset + 1)).take 32),
            BorshReader.mk r.buf (r.offset + 1 + 32))) := by
  refine ⟨?_, ?_, ?_, ?_, ?_, ?_, ?_, ?_, ?_, ?_, rfl, ?_, ?_, fun len => rfl, ?_, ?_⟩
  · rw [BorshReader.readU8]; split <;> simp_all
  · intro v r' h
    rw [BorshReader.readU8] at h
    split at h <;> simp_all
    exact ⟨h.2.symm ▸ rfl, h.2.symm ▸ rfl⟩
  · rw [BorshReader.readU16]; split <;> simp_all
  · intro v r' h
    rw [BorshReader.readU16] at h
    split at h <;> simp_all
    exact ⟨h.2.symm ▸ rfl, h.2.symm ▸ rfl⟩
  · rw [BorshReader.readU64]; split <;> simp_all
  · intro v r' h
    rw [BorshReader.readU64] at h
    split at h <;> simp_all
    exact ⟨h.2.symm ▸ rfl, h.2.symm ▸ rfl⟩
  · rw [BorshReader.readI64]; split <;> simp_all
  · intro v r' h
    rw [BorshReader.readI64] at h
    split at h <;> simp_all
    exact ⟨h.2.symm ▸ rfl, h.2.symm ▸ rfl⟩
  · simp only [BorshReader.readBool, BorshReader.readU8]
    split <;> simp_all
  · intro v r' h
    simp only [BorshReader.readBool, BorshReader.readU8] at h
    split at h <;> simp_all
    exact ⟨h.2.symm ▸ rfl, h.2.symm ▸ rfl⟩
  · rw [BorshReader.readString]; split <;> simp_all
  · intro v r' h
    rw [BorshReader.readString] at h
    split at h <;> simp_all
    exact ⟨h.2.symm ▸ rfl, h.2.symm ▸ rfl⟩
  · intro r' h
    refine ⟨?_, ?_, ?_⟩ <;>
      simp [BorshReader.readOptionBool, BorshReader.readOptionU8,
        BorshReader.readOptionPubkey, h]
  · intro v r' h hv
    have hoff : r'.offset = r.offset + 1 ∧ r'.buf = r.buf := by
      rw [BorshReader.readU8] at h
      split at h <;> simp_all
      exact ⟨h.2.symm ▸ rfl, h.2.symm ▸ rfl⟩
    simp [BorshReader.readOptionPubkey, h, hv, BorshReader.readPubkey, hoff.1, hoff.2]

/-- C9 witness: the cursor-advance law of `readU8` applied to the concrete
reader over `[7, 1, 2]` at offset 0. -/
theorem borsh_reader_contract_witness :
    (1 : ℕ) = 0 + 1 ∧ ([7, 1, 2] : List ℕ) = [7, 1, 2] :=
  (borsh_reader_contract ⟨[7, 1, 2], 0⟩).2.1 7 ⟨[7, 1, 2], 1⟩ rfl

/-- C4 counterexample: with capacity 2, exactly 1 available token, and a
queued `throttle(2)` call, a single loop iteration with no elapsed time
(hence no refill) serves the call immediately — the check is
`tokens >= 0`, not `tokens >= cost` — driving the balance to −1, where the
claim requires the call to wait for a refill. -/
theorem throttler_cost_counterexample :
    Throttler.loopStep ⟨1/50, 2, 1⟩ 100 ⟨1, [2], 100⟩ =
      (⟨-1, [], 100⟩, true) := by
  norm_num [Throttler.loopStep, Throttler.refill]

/-- C4 amended: a queued `throttle(cost)` call is served exactly when the
refilled token balance is ≥ 0 (never while it is negative, but regardless
of whether the balance covers the call's cost); serving debits the full
cost, possibly driving the balance negative, so that subsequent calls wait
until elapsed refills bring it back to ≥ 0. -/
theorem throttler_serves_iff_nonneg (cfg : ThrottlerConfig) (now : ℚ) (s : ThrottlerState) :
    ((Throttler.loopStep cfg now s).2 = true ↔
      (Throttler.refill cfg now s).queue ≠ [] ∧ 0 ≤ (Throttler.refill cfg now s).tokens)
    ∧ (∀ c rest, (Throttler.refill cfg now s).queue = c :: rest →
        0 ≤ (Throttler.refill cfg now s).tokens →
        (Throttler.loopStep cfg now s).1 =
          { tokens := (Throttler.refill cfg now s).tokens - c
            queue := rest
            lastTimestamp := (Throttler.refill cfg now s).lastTimestamp })
    ∧ (∀ c rest, (Throttler.refill cfg now s).queue = c :: rest →
        ¬ 0 ≤ (Throttler.refill cfg now s).tokens →
        (Throttler.loopStep cfg now s) = (Throttler.refill cfg now s, false)) := by
  refine ⟨?_, ?_, ?_⟩
  · rw [Throttler.loopStep]
    rcases hq : (Throttler.refill cfg now s).queue with _ | ⟨c, rest⟩ <;> simp [hq]
    split <;> simp_all
  · intro c rest hq ht
    rw [Throttler.loopStep]
    simp only [hq]
    rw [if_pos ht]
  · intro c rest hq ht
    rw [Throttler.loopStep]
    simp only [hq]
    rw [if_neg ht]

/-- C4 witness: the serve-and-debit law applied to the counterexample
configuration (capacity 2, one available token, queued cost 2). -/
theorem throttler_serves_iff_nonneg_witness :
    (Throttler.loopStep ⟨1/50, 2, 1⟩ 100 ⟨1, [2], 100⟩).1 =
      { tokens := (Throttler.refill ⟨1/50, 2, 1⟩ 100 ⟨1, [2], 100⟩).tokens - 2
        queue := []
        lastTimestamp := (Throttler.refill ⟨1/50, 2, 1⟩ 100 ⟨1, [2], 100⟩).lastTimestamp } :=
  (throttler_serves_iff_nonneg ⟨1/50, 2, 1⟩ 100 ⟨1, [2], 100⟩).2.1 2 []
    (by norm_num [Throttler.refill]) (by norm_num [Throttler.refill])

set_option maxRecDepth 4000 in
/-- C8 counterexample: the early-termination threshold is the hardcoded
constant 7500, not a caller-supplied target with a 1.5–2× margin over the
requested limit (default 50): a run whose first page already carries 200
raw child markets — four times the default limit — fetches a second page
anyway (stopping then only because that page is empty). -/
theorem kalshi_early_stop_counterexample :
    (kalshiFetchLoop respTwoPages).fetches = 2
    ∧ (kalshiFetchLoop respTwoPages).reason = StopReason.emptyPage
    ∧ 2 * 50 ≤ 200 ∧ 200 < MARKET_TARGET := by
  refine ⟨by decide, by decide, by norm_num, by norm_num [MARKET_TARGET]⟩

/-- C8 amended: every run of the pagination loop performs at most
`MAX_PAGES = 100` page fetches, and when it stops with the early-termination
reason, at least `MARKET_TARGET = 7500` raw child market records (a fixed
target of 5000 with 1.5× margin, independent of any caller parameter) were
observed. -/
theorem kalshi_pagination_spec (resp : ℕ → KalshiPage) :
    (kalshiFetchLoop resp).fetches ≤ MAX_PAGES
    ∧ ((kalshiFetchLoop resp).reason = StopReason.targetReached →
        MARKET_TARGET ≤ (kalshiFetchLoop resp).totalMarkets) :=
  ⟨kalshiPaginate_fetches_le resp MAX_PAGES 0 0 [],
   kalshiPaginate_target_sound resp MAX_PAGES 0 0 []⟩

/-- C8 witness: the target-soundness direction applied to the stream whose
first page alone carries 7500 raw market records. -/
theorem kalshi_pagination_spec_witness :
    MARKET_TARGET ≤ (kalshiFetchLoop respTargetPage).totalMarkets :=
  (kalshi_pagination_spec respTargetPage).2 (by
    have hev : (respTargetPage 0).events = [⟨List.replicate 7500 0⟩] := rfl
    have hsum : ((respTargetPage 0).events.map (fun e => e.markets.length)).sum = 7500 := by
      rw [hev, List.map_cons, List.map_nil, List.sum_cons, List.sum_nil,
        List.length_replicate, Nat.add_zero]
    have htar : MARKET_TARGET ≤
        0 + ((respTargetPage 0).events.map (fun e => e.markets.length)).sum := by
      rw [hsum, MARKET_TARGET]
    have hne : (respTargetPage 0).events.isEmpty = false := by
      rw [hev]; rfl
    rw [kalshiFetchLoop, show MAX_PAGES = 99 + 1 from rfl,
      kalshiPaginate_first_target respTargetPage 99 0 0 [] hne htar])

/-- C10: the market cache, series map and cache timestamps live at module
scope, so they are shared by every `KalshiExchange` instance (the embedding
threads the single module state; the instance argument cannot influence the
result).  After any instance's fetch populates the cache for a status, any
other instance's fetch for the same status within the 10-minute TTL returns
the identical cached list with zero page fetches and leaves the state
untouched, and `resetCache()` resets the single shared state for everyone
at once. -/
theorem kalshi_cache_shared (instA instB : ℕ) (now now2 : ℤ) (status : String)
    (resp resp2 : ℕ → KalshiPage) (series series2 : List (String × List String))
    (st : KalshiGlobalState)
    (hmiss : cacheHit st now status = false)
    (httl : now2 - now < CACHE_TTL) :
    ((fetchAllActiveMarkets instB now2 status resp2 series2
        (fetchAllActiveMarkets instA now status resp series st).state).result =
      (fetchAllActiveMarkets instA now status resp series st).result)
    ∧ ((fetchAllActiveMarkets instB now2 status resp2 series2
        (fetchAllActiveMarkets instA now status resp series st).state).pageFetches = 0)
    ∧ ((fetchAllActiveMarkets instB now2 status resp2 series2
        (fetchAllActiveMarkets instA now status resp series st).state).state =
      (fetchAllActiveMarkets instA now status resp series st).state)
    ∧ resetCache (fetchAllActiveMarkets instA now status resp series st).state
        = emptyKalshiState := by
  have h1 : fetchAllActiveMarkets instA now status resp series st =
      { result := extractMarkets (kalshiFetchLoop resp).events
        state :=
          { marketCache := fun s => if s = status then
              some (extractMarkets (kalshiFetchLoop resp).events) else st.marketCache s
            seriesMap := some series
            lastCacheTime := fun s => if s = status then some now else st.lastCacheTime s }
        pageFetches := (kalshiFetchLoop resp).fetches } := by
    rw [fetchAllActiveMarkets, hmiss]
    simp
  have hhit : cacheHit (fetchAllActiveMarkets instA now status resp series st).state
      now2 status = true := by
    rw [h1]
    simp [cacheHit, httl]
  rw [h1] at hhit ⊢
  rw [fetchAllActiveMarkets, hhit]
  simp [resetCache]

/-- C10 witness: a second instance's fetch right after a first instance's
populating fetch (empty upstream, status open, 1 ms later) performs zero
page fetches. -/
theorem kalshi_cache_shared_witness :
    (fetchAllActiveMarkets 1 1 "open" (fun _ => ⟨[], none⟩) []
        (fetchAllActiveMarkets 0 0 "open" (fun _ => ⟨[], none⟩) []
          emptyKalshiState).state).pageFetches = 0 :=
  (kalshi_cache_shared 0 1 0 1 "open" (fun _ => ⟨[], none⟩) (fun _ => ⟨[], none⟩)
    [] [] emptyKalshiState rfl (by norm_num [CACHE_TTL])).2.1

/-- C5: evaluation at the failing input. `PolymarketWebSocket.close()` only
clears the vendor manager state: with one pending `watchOrderBook` resolver
for id X it rejects nothing and leaves the resolver queue untouched (the
caller keeps awaiting forever), whereas `BaoziWebSocket.close()` rejects
its pending resolver with a closed error and clears both maps, as the claim
demands of every channel. -/
theorem polymarket_close_leaves_pending :
    ((PolymarketWebSocket.close ⟨fun _ => none, [("X", [7])], [], ["X"]⟩).2 = [])
    ∧ ((PolymarketWebSocket.close
        ⟨fun _ => none, [("X", [7])], [], ["X"]⟩).1.orderBookResolvers = [("X", [7])])
    ∧ ((PolymarketWebSocket.close
        ⟨fun _ => none, [("X", [7])], [], ["X"]⟩).1.tradeResolvers = [])
    ∧ (BaoziWebSocket.close ⟨[("Y", [9])], [("Y", 1)]⟩ = (⟨[], []⟩, [9])) :=
  ⟨rfl, rfl, rfl, rfl⟩

/-- C6: a price-change delta for an id with no cached snapshot is dropped:
the state (books and resolver queues) is unchanged, no resolver fires, and
the cached state for that id remains absent. -/
theorem delta_without_snapshot_noop (ts : ℤ) (ch : PriceChange) (st : PolyState)
    (h : st.orderBooks ch.assetId = none) :
    applyPriceChange ts ch st = (st, [])
    ∧ (applyPriceChange ts ch st).1.orderBooks ch.assetId = none := by
  constructor
  · simp only [applyPriceChange, h]
  · simp only [applyPriceChange, h]

/-- C6 witness: a BUY delta for id A against a channel state with no cached
books is a no-op. -/
theorem delta_without_snapshot_noop_witness :
    (applyPriceChange 0 ⟨"A", 1/2, 1, "BUY"⟩ ⟨fun _ => none, [], [], []⟩ =
      (⟨fun _ => none, [], [], []⟩, []))
    ∧ ((applyPriceChange 0 ⟨"A", 1/2, 1, "BUY"⟩
        ⟨fun _ => none, [], [], []⟩).1.orderBooks "A" = none) :=
  delta_without_snapshot_noop 0 ⟨"A", 1/2, 1, "BUY"⟩ ⟨fun _ => none, [], [], []⟩ rfl

/-- C7: every cached order book of the realtime channel has bids
non-increasing and asks non-decreasing by price — it holds of the initial
(empty) state, `handleBookSnapshot` establishes it for the snapshotted id
(both sides are sorted before caching), and `handlePriceChange` preserves
it (removal keeps a sorted list sorted, an in-place size update keeps every
price in place, and an insertion re-sorts the side). -/
theorem orderbook_sides_sorted :
    StateSorted ⟨fun _ => none, [], [], []⟩
    ∧ (∀ (ev : BookEvent) (st : PolyState), StateSorted st →
        StateSorted (handleBookSnapshot ev st).1)
    ∧ (∀ (ts : ℤ) (ch : PriceChange) (st : PolyState), StateSorted st →
        StateSorted (applyPriceChange ts ch st).1) := by
  refine ⟨?_, ?_, ?_⟩
  · intro id ob h
    exact absurd h (by simp)
  · intro ev st hst id ob h
    simp only [handleBookSnapshot] at h
    rw [resolveOrderBook_orderBooks] at h
    simp only at h
    by_cases hid : id = ev.assetId
    · rw [if_pos hid] at h
      obtain rfl := (Option.some.inj h).symm
      exact ⟨sortBids_sorted _, sortAsks_sorted _⟩
    · rw [if_neg hid] at h
      exact hst id ob h
  · intro ts ch st hst id ob h
    cases hcase : st.orderBooks ch.assetId with
    | none =>
      simp only [applyPriceChange, hcase] at h
      exact hst id ob h
    | some book =>
      simp only [applyPriceChange, hcase] at h
      rw [resolveOrderBook_orderBooks] at h
      simp only at h
      by_cases hid : id = ch.assetId
      · rw [if_pos hid] at h
        have hob := hst ch.assetId book hcase
        by_cases hbuy : (ch.side.toUpper == "BUY") = true
        · simp only [hbuy, if_true] at h
          obtain rfl := (Option.some.inj h).symm
          exact ⟨applyDelta_bids_sorted _ _ _ hob.1, hob.2⟩
        · simp only [Bool.not_eq_true] at hbuy
          simp only [hbuy, Bool.false_eq_true, if_false] at h
          obtain rfl := (Option.some.inj h).symm
          exact ⟨hob.1, applyDelta_asks_sorted _ _ _ hob.2⟩
      · rw [if_neg hid] at h
        exact hst id ob h

/-- C7 witness: a concrete snapshot for id A over the empty channel state
(the empty state's sortedness hypothesis is discharged by vacuity). -/
theorem orderbook_sides_sorted_witness :
    StateSorted (handleBookSnapshot ⟨"A", [⟨1/2, 5⟩, ⟨3/4, 2⟩], [⟨1/4, 1⟩], 0⟩
      ⟨fun _ => none, [], [], []⟩).1 :=
  orderbook_sides_sorted.2.1 ⟨"A", [⟨1/2, 5⟩, ⟨3/4, 2⟩], [⟨1/4, 1⟩], 0⟩
    ⟨fun _ => none, [], [], []⟩ (fun _ _ h => absurd h (by simp))

end Pmxt
